import Mathlib

/-!
Shallow embedding of the time-bounded state reconciliation engine of the
Pixel moderation bot: the vote-mute store (`votemute_db.py`), the vote
engine entry points in `bot.py` (`vote_callback_handler`, `finish_votemute`,
`votemute_timer`, `votemute_command`, `create_votemute_vote`, the core of
`mute_command`), and the expiry reconciliation loops of `scheduler.py`
(`mute_expiry_task`, `ban_expiry_task`).

Timestamps are modelled as integers (seconds); the Python code stores
`datetime.isoformat()` strings and compares them either lexicographically
(SQL) or after `fromisoformat` parsing — both orders agree with the
underlying instant order, so an integer clock is a faithful abstraction.

The moderation punishment store (`moderation_db.py`) is not part of the
source tree; only its callers are.  Its three operations used by the core
are modelled from the spec (§4.1/§6) and carry `Modelled from the spec:`
doc comments.
-/

namespace Pixel

/-- A yes/no ballot choice (`vote_type` column, `"yes"`/`"no"`). -/
inductive Choice where
  | yes
  | no
  deriving Repr, DecidableEq

/-- One row of the `active_votes` table of `votemute_db.py`. -/
structure Vote where
  voteId : Nat
  chatId : Int
  targetUserId : Int
  creatorId : Int
  /-- proposed mute duration in seconds (`mute_duration`). -/
  muteDuration : Int
  /-- `required_votes`: ballots needed for early resolution. -/
  requiredVotes : Nat
  /-- voting window length in minutes (`vote_duration`). -/
  voteDuration : Int
  createdAt : Int
  expiresAt : Int
  isPinned : Bool
  messageId : Option Int
  deriving Repr, DecidableEq

/-- One row of the `vote_results` table: a single voter's ballot. -/
structure Ballot where
  voteId : Nat
  userId : Int
  voteType : Choice
  votedAt : Int
  lastChangeAt : Int
  deriving Repr, DecidableEq

/-- The claim-relevant projection of a `vote_history` row written by
`finish_vote` / `cleanup_expired_votes`. -/
structure HistEntry where
  voteId : Nat
  result : String
  reason : String
  votesYes : Nat
  votesNo : Nat
  finishedAt : Int
  deriving Repr, DecidableEq

/-- State of the vote-mute database (`votemute.db`): the three tables the
claims touch plus the per-chat creation cooldown table and the
AUTOINCREMENT counter of `active_votes.vote_id`. -/
structure VMState where
  activeVotes : List Vote
  voteResults : List Ballot
  voteHistory : List HistEntry
  cooldowns : List (Int × Int)
  nextVoteId : Nat
  deriving Repr, DecidableEq

/-- `VoteMuteDatabase.get_vote_by_id`: `SELECT * FROM active_votes WHERE
vote_id = ?`. -/
def get_vote_by_id (voteId : Nat) (vm : VMState) : Option Vote :=
  vm.activeVotes.find? (fun v => v.voteId == voteId)

/-- `VoteMuteDatabase.get_active_vote`: `SELECT * FROM active_votes WHERE
chat_id = ? AND expires_at > now ORDER BY created_at DESC LIMIT 1`. -/
def get_active_vote (now : Int) (chatId : Int) (vm : VMState) : Option Vote :=
  (vm.activeVotes.filter
      (fun v => v.chatId == chatId && decide (now < v.expiresAt))).foldl
    (fun acc v =>
      match acc with
      | none => some v
      | some w => if w.createdAt < v.createdAt then some v else some w)
    none

/-- `VoteMuteDatabase.get_vote_results`: yes-count and no-count of the
ballots of one vote (`GROUP BY vote_type`). -/
def get_vote_results (voteId : Nat) (vm : VMState) : Nat × Nat :=
  ((vm.voteResults.filter
      (fun b => b.voteId == voteId && b.voteType == Choice.yes)).length,
   (vm.voteResults.filter
      (fun b => b.voteId == voteId && b.voteType == Choice.no)).length)

/-- `VoteMuteDatabase.add_vote`: insert a new ballot, or — when the voter
already has one — update it only if at least 30 seconds have passed since
its `last_change_at`; returns whether the ballot was recorded. -/
def add_vote (now : Int) (voteId : Nat) (userId : Int) (choice : Choice)
    (vm : VMState) : Bool × VMState :=
  match vm.voteResults.find? (fun b => b.voteId == voteId && b.userId == userId) with
  | some b =>
      if now - b.lastChangeAt < 30 then
        (false, vm)
      else
        (true,
         { vm with
            voteResults := vm.voteResults.map (fun b' =>
              if b'.voteId == voteId && b'.userId == userId then
                { b' with voteType := choice, votedAt := now, lastChangeAt := now }
              else b') })
  | none =>
      (true,
       { vm with
          voteResults := vm.voteResults ++
            [{ voteId := voteId, userId := userId, voteType := choice,
               votedAt := now, lastChangeAt := now }] })

/-- `VoteMuteDatabase.finish_vote`: if the vote is still in `active_votes`,
move it to `vote_history` (recording result, reason and final tally),
delete it and its ballots, and return it; return `none` (and change
nothing) if another caller already finished it. -/
def finish_vote (now : Int) (voteId : Nat) (result : String) (reason : String)
    (vm : VMState) : Option Vote × VMState :=
  match vm.activeVotes.find? (fun v => v.voteId == voteId) with
  | none => (none, vm)
  | some v =>
      let r := get_vote_results voteId vm
      (some v,
       { vm with
          voteHistory := vm.voteHistory ++
            [{ voteId := voteId, result := result, reason := reason,
               votesYes := r.1, votesNo := r.2, finishedAt := now }],
          activeVotes := vm.activeVotes.filter (fun w => !(w.voteId == voteId)),
          voteResults := vm.voteResults.filter (fun b => !(b.voteId == voteId)) })

/-- `VoteMuteDatabase.create_vote`: insert a fresh `active_votes` row;
`expires_at = now + vote_duration` minutes. -/
def create_vote (now : Int) (chatId targetUserId creatorId : Int)
    (muteDuration : Int) (requiredVotes : Nat) (voteDuration : Int)
    (isPinned : Bool) (vm : VMState) : Nat × VMState :=
  let vid := vm.nextVoteId
  (vid,
   { vm with
      activeVotes := vm.activeVotes ++
        [{ voteId := vid, chatId := chatId, targetUserId := targetUserId,
           creatorId := creatorId, muteDuration := muteDuration,
           requiredVotes := requiredVotes, voteDuration := voteDuration,
           createdAt := now, expiresAt := now + 60 * voteDuration,
           isPinned := isPinned, messageId := none }],
      nextVoteId := vid + 1 })

/-- `VoteMuteDatabase.check_cooldown`: creation allowed when the chat has no
cooldown row or the last creation is at least 180 seconds old. -/
def check_cooldown (now : Int) (chatId : Int) (vm : VMState) : Bool :=
  match vm.cooldowns.find? (fun c => c.1 == chatId) with
  | none => true
  | some c => decide (now - c.2 ≥ 180)

/-- `VoteMuteDatabase.set_cooldown`: `INSERT OR REPLACE` the chat's
`last_vote_created_at`. -/
def set_cooldown (now : Int) (chatId : Int) (vm : VMState) : VMState :=
  { vm with
      cooldowns := (chatId, now) ::
        vm.cooldowns.filter (fun c => !(c.1 == chatId)) }

/-- `VoteMuteDatabase.cleanup_expired_votes`: every `active_votes` row with
`expires_at ≤ now` is moved to history with result `"failed"` and reason
`"Время истекло"`, unconditionally — the tally is recorded but never
consulted.  The per-vote body re-selects, inserts into history and deletes
exactly as `finish_vote` does, so it is expressed through `finish_vote`. -/
def cleanup_expired_votes (now : Int) (vm : VMState) : Nat × VMState :=
  let expired := (vm.activeVotes.filter (fun v => decide (v.expiresAt ≤ now))).map
    (fun v => v.voteId)
  (expired.length,
   expired.foldl (fun s vid => (finish_vote now vid "failed" "Время истекло" s).2) vm)

/-! ## Moderation punishment store

`moderation_db.py` is not part of the source tree (only its callers in
`bot.py` and `scheduler.py` are), so its three operations are modelled
from the spec. -/

/-- One punishment record (spec §3: id, chat, subject, issuer, kind,
optional duration, optional expiry timestamp, active flag). -/
structure Punishment where
  id : Nat
  chatId : Int
  userId : Int
  moderatorId : Int
  kind : String
  durationSeconds : Option Int
  expiryDate : Option Int
  active : Bool
  deriving Repr, DecidableEq

/-- State of the moderation punishment store: the punishment records plus
the next fresh record id. -/
structure MState where
  punishments : List Punishment
  nextId : Nat
  deriving Repr, DecidableEq

/-- Modelled from the spec: `moderation_db.add_punishment` (missing module
`moderation_db.py`; spec §6 `addPunishment(chat, subject, issuer, kind,
reason?, durationSeconds?) -> id`) — append a fresh active record and
return its id. -/
def add_punishment (chatId userId moderatorId : Int) (kind : String)
    (durationSeconds : Option Int) (expiryDate : Option Int)
    (ms : MState) : Nat × MState :=
  (ms.nextId,
   { punishments := ms.punishments ++
       [{ id := ms.nextId, chatId := chatId, userId := userId,
          moderatorId := moderatorId, kind := kind,
          durationSeconds := durationSeconds, expiryDate := expiryDate,
          active := true }],
     nextId := ms.nextId + 1 })

/-- Modelled from the spec: `moderation_db.get_active_punishments` (missing
module `moderation_db.py`; spec §6 `getActivePunishments(chat, kind) ->
[Punishment]`) — the active records of one kind in one chat. -/
def get_active_punishments (chatId : Int) (kind : String) (ms : MState) :
    List Punishment :=
  ms.punishments.filter (fun p => p.chatId == chatId && p.kind == kind && p.active)

/-- Modelled from the spec: `moderation_db.deactivate_punishment` (missing
module `moderation_db.py`; spec §4.1: an atomic compare-and-set that flips
`active` from true to false and returns whether *this call* performed the
flip). -/
def deactivate_punishment (pid : Nat) (ms : MState) : Bool × MState :=
  match ms.punishments.find? (fun p => p.id == pid && p.active) with
  | none => (false, ms)
  | some _ =>
      (true,
       { ms with punishments := ms.punishments.map (fun p =>
           if p.id == pid then { p with active := false } else p) })

/-- Look a punishment record up by id. -/
def lookup_punishment (pid : Nat) (ms : MState) : Option Punishment :=
  ms.punishments.find? (fun p => p.id == pid)

/-! ## Side effects

Outbound platform calls and user-facing notifications are collected as an
effect list rather than performed. -/

/-- A platform call or notification emitted by the embedded code.  The
reconciler effects additionally carry the id of the punishment they
reverse, so that "a reversal side effect on this punishment" is
expressible. -/
inductive Effect where
  /-- `bot.restrict_chat_member` removing posting rights until a timestamp. -/
  | restrictMember (chatId userId untilTs : Int)
  /-- `bot.restrict_chat_member` restoring posting rights for an expired
  mute of the given punishment id, in `mute_expiry_task`. -/
  | unrestrictMember (pid : Nat) (chatId userId : Int)
  /-- `bot.unban_chat_member` for an expired ban of the given punishment
  id, in `ban_expiry_task`. -/
  | unbanMember (pid : Nat) (chatId userId : Int)
  /-- the user-facing unmute/unban notification sent by an expiry scan for
  the given punishment id. -/
  | notifyReversal (pid : Nat) (chatId : Int)
  /-- `safe_answer_callback` with the given reply. -/
  | answerCb (text : String)
  /-- editing the vote prompt message. -/
  | editMessage (chatId : Int)
  /-- unpinning the vote prompt message. -/
  | unpinMessage (chatId : Int)
  deriving Repr, DecidableEq

/-! ## Vote engine entry points (`bot.py`) -/

/-- Moderation rank constants of `bot.py`; `RANK_USER = 5` is the baseline
non-moderator role. -/
def RANK_OWNER : Nat := 1

/-- `RANK_ADMIN = 2`. -/
def RANK_ADMIN : Nat := 2

/-- `RANK_USER = 5`, the baseline role; only members holding it may cast a
ballot. -/
def RANK_USER : Nat := 5

/-- `finish_votemute` (`bot.py`): read the vote, read the tally, call
`finish_vote` (its return value is discarded by the source), then — when
the result is `"success"` — apply the mute via `bot.restrict_chat_member`
and `moderation_db.add_punishment` with the vote's proposed duration
(`until = now + mute_duration`), and finally unpin (when pinned) and edit
the prompt.  Note: the success branch records the new punishment without
first deactivating existing active mutes of the subject. -/
def finish_votemute (now : Int) (voteId : Nat) (result reason : String)
    (vm : VMState) (ms : MState) : VMState × MState × List Effect :=
  match get_vote_by_id voteId vm with
  | none => (vm, ms, [])
  | some v =>
      let vm1 := (finish_vote now voteId result reason vm).2
      let tail : List Effect :=
        (if v.isPinned then [Effect.unpinMessage v.chatId] else []) ++
          [Effect.editMessage v.chatId]
      if result == "success" then
        let muteUntil := now + v.muteDuration
        let ms1 := (add_punishment v.chatId v.targetUserId 0 "mute"
          (some v.muteDuration) (some muteUntil) ms).2
        (vm1, ms1,
         Effect.restrictMember v.chatId v.targetUserId muteUntil :: tail)
      else
        (vm1, ms, tail)

/-- `vote_callback_handler` (`bot.py`), for a `vote_yes_*`/`vote_no_*`
callback: look the vote up by id, reject if the voting window elapsed,
reject creator/target/non-baseline-rank senders, record the ballot through
`add_vote` (rejecting on cooldown), then — when the new tally reaches the
required threshold — finish the vote with `"success"` iff yes > no.  The
sender's effective rank is passed in (`get_effective_rank` reads external
state). -/
def vote_callback_handler (now : Int) (voteId : Nat) (choice : Choice)
    (userId : Int) (userRank : Nat) (vm : VMState) (ms : MState) :
    VMState × MState × List Effect :=
  match get_vote_by_id voteId vm with
  | none => (vm, ms, [Effect.answerCb "vote not found"])
  | some v =>
      if v.expiresAt ≤ now then
        (vm, ms, [Effect.answerCb "vote finished"])
      else if userId == v.creatorId then
        (vm, ms, [Effect.answerCb "creator cannot vote"])
      else if userId == v.targetUserId then
        (vm, ms, [Effect.answerCb "target cannot vote"])
      else if userRank ≠ RANK_USER then
        (vm, ms, [Effect.answerCb "moderators do not vote"])
      else
        let res := add_vote now voteId userId choice vm
        if !res.1 then
          (res.2, ms, [Effect.answerCb "ballot change cooldown"])
        else
          let vm1 := res.2
          let r := get_vote_results voteId vm1
          if r.1 + r.2 ≥ v.requiredVotes then
            if r.1 > r.2 then
              let out := finish_votemute now voteId "success"
                "majority for mute" vm1 ms
              (out.1, out.2.1, out.2.2 ++ [Effect.answerCb "counted"])
            else
              let out := finish_votemute now voteId "failed"
                "majority against mute" vm1 ms
              (out.1, out.2.1, out.2.2 ++ [Effect.answerCb "counted"])
          else
            (vm1, ms, [Effect.answerCb "counted"])

/-- The body of `votemute_timer` (`bot.py`) after its sleep: if the vote
still exists, resolve by the majority rule on the current tally —
`"success"` when yes > no, `"failed"` otherwise (ties included). -/
def votemute_timer_fire (now : Int) (voteId : Nat) (vm : VMState)
    (ms : MState) : VMState × MState × List Effect :=
  match get_vote_by_id voteId vm with
  | none => (vm, ms, [])
  | some _ =>
      let r := get_vote_results voteId vm
      if r.1 > r.2 then
        finish_votemute now voteId "success" "window elapsed, majority for" vm ms
      else
        finish_votemute now voteId "failed" "window elapsed, majority against" vm ms

/-- Outcome of the guard section of `votemute_command` (`bot.py`). -/
inductive CommandOutcome where
  /-- refused: the per-chat 3-minute creation cooldown has not elapsed. -/
  | refusedCooldown
  /-- refused: `get_active_vote` found a live vote in the chat. -/
  | refusedActiveVote
  /-- all guards passed; the configuration panel is opened. -/
  | panelOpened
  deriving Repr, DecidableEq

/-- The per-chat guard section of `votemute_command` (`bot.py`): check the
creation cooldown, then refuse when a live vote already exists in the
chat.  It performs no write and creates nothing itself. -/
def votemute_command_guard (now : Int) (chatId : Int) (vm : VMState) :
    CommandOutcome :=
  if !(check_cooldown now chatId vm) then
    CommandOutcome.refusedCooldown
  else if (get_active_vote now chatId vm).isSome then
    CommandOutcome.refusedActiveVote
  else
    CommandOutcome.panelOpened

/-- `create_votemute_vote` (`bot.py`): set the chat cooldown and create the
vote row.  It performs no check that the chat still has no live vote. -/
def create_votemute_vote (now : Int) (chatId targetUserId creatorId : Int)
    (muteDurationMinutes : Int) (requiredVotes : Nat) (voteDuration : Int)
    (isPinned : Bool) (vm : VMState) : Nat × VMState :=
  let vm1 := set_cooldown now chatId vm
  create_vote now chatId targetUserId creatorId (muteDurationMinutes * 60)
    requiredVotes voteDuration isPinned vm1

/-- The post-validation core of `mute_command` (`bot.py`): restrict the
member, deactivate every active mute of the subject in the chat (re-issue
overwrites), then record the new punishment with
`expiry_date = now + duration`. -/
def mute_command_core (now : Int) (chatId targetId moderatorId : Int)
    (durationSeconds : Int) (ms : MState) : MState × List Effect :=
  let muteUntil := now + durationSeconds
  let actives := get_active_punishments chatId "mute" ms
  let ms1 := actives.foldl
    (fun s p => if p.userId == targetId then (deactivate_punishment p.id s).2 else s)
    ms
  let ms2 := (add_punishment chatId targetId moderatorId "mute"
    (some durationSeconds) (some muteUntil) ms1).2
  (ms2, [Effect.restrictMember chatId targetId muteUntil])

/-! ## Expiry reconciler (`scheduler.py`) -/

/-- The dedup cache `_recently_processed_mutes`: punishment id ↦ timestamp
of its last processing. -/
def DedupCache := List (Nat × Int)

/-- Dedup-cache lookup in `mute_expiry_task`: skip a mute processed less
than 30 seconds ago. -/
def cache_hit (ctime : Int) (pid : Nat) (cache : List (Nat × Int)) : Bool :=
  match cache.find? (fun e => e.1 == pid) with
  | none => false
  | some e => decide (ctime - e.2 < 30)

/-- `recently_processed_ref[mute_id] = current_time`. -/
def cache_set (pid : Nat) (ctime : Int) (cache : List (Nat × Int)) :
    List (Nat × Int) :=
  (pid, ctime) :: cache.filter (fun e => !(e.1 == pid))

/-- The per-mute body of `TaskScheduler.mute_expiry_task`: skip on a fresh
dedup-cache entry; skip a record with no `expiry_date`; skip while
`now - expiry < 0`; otherwise atomically deactivate first and, only when
this call performed the flip, lift the restriction and notify. -/
def process_mute_record (now ctime : Int) (m : Punishment) (ms : MState)
    (cache : List (Nat × Int)) : MState × List (Nat × Int) × List Effect :=
  if cache_hit ctime m.id cache then
    (ms, cache, [])
  else
    match m.expiryDate with
    | none => (ms, cache, [])
    | some e =>
        if now - e < 0 then
          (ms, cache, [])
        else
          let res := deactivate_punishment m.id ms
          if !res.1 then
            (res.2, cache_set m.id ctime cache, [])
          else
            (res.2, cache_set m.id ctime cache,
             [Effect.unrestrictMember m.id m.chatId m.userId,
              Effect.notifyReversal m.id m.chatId])

/-- One chat's iteration of `mute_expiry_task` (`process_chat_mutes`): fetch
the chat's active mutes once, then process each in order, threading the
store and the dedup cache. -/
def scan_chat_mutes (now ctime : Int) (cache : List (Nat × Int))
    (chatId : Int) (ms : MState) : MState × List (Nat × Int) × List Effect :=
  (get_active_punishments chatId "mute" ms).foldl
    (fun acc m =>
      let step := process_mute_record now ctime m acc.1 acc.2.1
      (step.1, step.2.1, acc.2.2 ++ step.2.2))
    (ms, cache, [])

/-- The per-ban body of `TaskScheduler.ban_expiry_task`: skip a record with
no `expiry_date`; when `now ≥ expiry`, atomically deactivate first and,
only when this call performed the flip, unban and notify. -/
def process_ban_record (now : Int) (b : Punishment) (ms : MState) :
    MState × List Effect :=
  match b.expiryDate with
  | none => (ms, [])
  | some e =>
      if now ≥ e then
        let res := deactivate_punishment b.id ms
        if !res.1 then
          (res.2, [])
        else
          (res.2,
           [Effect.unbanMember b.id b.chatId b.userId,
            Effect.notifyReversal b.id b.chatId])
      else (ms, [])

/-- One chat's iteration of `ban_expiry_task` (`process_chat_bans`). -/
def scan_chat_bans (now : Int) (chatId : Int) (ms : MState) :
    MState × List Effect :=
  (get_active_punishments chatId "ban" ms).foldl
    (fun acc b =>
      let step := process_ban_record now b acc.1
      (step.1, acc.2 ++ step.2))
    (ms, [])

/-! ## Concurrent expiry scans racing on one punishment

`deactivate_punishment` is the only shared-state transition of the scan
body; each racing scan executes, for the contested punishment, the atomic
CAS followed — only on a `true` return — by the reversal side effect
(unmute/unban plus notification).  The interleaving of these atomic
actions is modelled by a trace of agent indices. -/

/-- Local state of one expiry scan racing on a fixed punishment: `pc = 0`
before its `deactivate_punishment` call, `pc = 1` when the call returned
true and the side effect is pending, `pc = 2` when done; `won` records the
CAS return value and `fx` how many times this scan performed the reversal
side effect. -/
structure ScanAgent where
  pc : Nat
  won : Option Bool
  fx : Nat
  deriving Repr, DecidableEq

/-- Shared store plus the racing scans' local states. -/
structure ScanSys where
  ms : MState
  agents : List ScanAgent
  deriving Repr, DecidableEq

/-- One atomic action of scan `i` on the punishment `pid`: its CAS when at
`pc = 0` (branching on the returned Bool exactly as the source does), its
reversal side effect when it owns one, nothing when done. -/
def scan_agent_step (pid : Nat) (sys : ScanSys) (i : Nat) : ScanSys :=
  match sys.agents.get? i with
  | none => sys
  | some a =>
      if a.pc == 0 then
        let res := deactivate_punishment pid sys.ms
        { ms := res.2,
          agents := sys.agents.set i
              ({ pc := if res.1 then 1 else 2, won := some res.1, fx := a.fx }) }
      else if a.pc == 1 then
        { sys with agents := sys.agents.set i ({ a with pc := 2, fx := a.fx + 1 }) }
      else sys

/-- Run an interleaving: each trace entry names the scan that performs its
next atomic action. -/
def run_scan_race (pid : Nat) (tr : List Nat) (sys : ScanSys) : ScanSys :=
  tr.foldl (scan_agent_step pid) sys

/-- `n` scans about to race on the same punishment over store `ms`. -/
def init_scan_race (n : Nat) (ms : MState) : ScanSys :=
  { ms := ms, agents := List.replicate n ({ pc := 0, won := none, fx := 0 }) }

/-- Total number of reversal side effects performed across all racing
scans. -/
def ScanSys.totalFx (sys : ScanSys) : Nat :=
  (sys.agents.map (fun a => a.fx)).sum

/-! ## Concurrent vote finalizations racing on one vote

`finish_votemute` awaits `get_vote_by_id`, returns when the vote is gone,
then awaits `finish_vote` *discarding its return value*, then performs the
resolution side effects (apply the mute on success, unpin, edit the
prompt).  The await points cut it into three atomic pieces. -/

/-- Local state of one `finish_votemute` execution: `pc = 0` before its
`get_vote_by_id` read, `pc = 1` holding the read outcome in `saw`,
`pc = 2` after its `finish_vote` call with the side-effect block pending,
`pc = 3` done; `fx` counts its performances of the side-effect block. -/
structure FinAgent where
  pc : Nat
  saw : Bool
  result : String
  reason : String
  fx : Nat
  deriving Repr, DecidableEq

/-- Shared vote store plus the racing finalizers' local states. -/
structure FinSys where
  vm : VMState
  agents : List FinAgent
  deriving Repr, DecidableEq

/-- One atomic action of finalizer `i` on vote `voteId`: its read at
`pc = 0`; at `pc = 1` either the early return (vote was gone) or its
`finish_vote` call, whose return value it discards; at `pc = 2` the
side-effect block. -/
def fin_agent_step (now : Int) (voteId : Nat) (sys : FinSys) (i : Nat) :
    FinSys :=
  match sys.agents.get? i with
  | none => sys
  | some a =>
      if a.pc == 0 then
        { sys with
            agents := sys.agents.set i
              ({ a with pc := 1, saw := (get_vote_by_id voteId sys.vm).isSome }) }
      else if a.pc == 1 then
        if a.saw then
          { vm := (finish_vote now voteId a.result a.reason sys.vm).2,
            agents := sys.agents.set i ({ a with pc := 2 }) }
        else
          { sys with agents := sys.agents.set i ({ a with pc := 3 }) }
      else if a.pc == 2 then
        { sys with agents := sys.agents.set i ({ a with pc := 3, fx := a.fx + 1 }) }
      else sys

/-- Run an interleaving of racing finalizers. -/
def run_fin_race (now : Int) (voteId : Nat) (tr : List Nat) (sys : FinSys) :
    FinSys :=
  tr.foldl (fin_agent_step now voteId) sys

/-- A finalizer about to start, with its result/reason parameters. -/
def fin_agent_init (result reason : String) : FinAgent :=
  { pc := 0, saw := false, result := result, reason := reason, fx := 0 }

/-- Total number of resolution side-effect blocks performed across all
racing finalizers. -/
def FinSys.totalFx (sys : FinSys) : Nat :=
  (sys.agents.map (fun a => a.fx)).sum

/-- Number of history rows recorded for one vote. -/
def hist_count (voteId : Nat) (vm : VMState) : Nat :=
  (vm.voteHistory.filter (fun h => h.voteId == voteId)).length

/-- The punishment id a reconciler effect reverses, if it is a reversal
effect. -/
def Effect.reversedId : Effect → Option Nat
  | Effect.unrestrictMember pid _ _ => some pid
  | Effect.unbanMember pid _ _ => some pid
  | Effect.notifyReversal pid _ => some pid
  | _ => none

/-- Number of live (non-expired) votes of one chat. -/
def live_count (now : Int) (chatId : Int) (vm : VMState) : Nat :=
  (vm.activeVotes.filter
    (fun v => v.chatId == chatId && decide (now < v.expiresAt))).length

/-- Number of active mute records of one (chat, subject) pair. -/
def active_mute_count (chatId userId : Int) (ms : MState) : Nat :=
  (ms.punishments.filter (fun p =>
    p.chatId == chatId && p.userId == userId && p.kind == "mute" && p.active)).length

/-! ## Theorems -/

/-- C8: a ballot change strictly less than 30 seconds after the voter's
`last_change_at` returns false and leaves the vote store — hence the
stored ballot and the tally — unchanged; a change at 30 seconds or later
is accepted and rewrites the voter's ballot with the new choice and
`last_change_at = now`. -/
theorem ballot_change_cooldown (now : Int) (voteId : Nat) (userId : Int)
    (choice : Choice) (vm : VMState) (b : Ballot)
    (hb : vm.voteResults.find?
      (fun b' => b'.voteId == voteId && b'.userId == userId) = some b) :
    (now - b.lastChangeAt < 30 →
      add_vote now voteId userId choice vm = (false, vm)) ∧
    (30 ≤ now - b.lastChangeAt →
      add_vote now voteId userId choice vm =
        (true,
         { vm with
            voteResults := vm.voteResults.map (fun b' =>
              if b'.voteId == voteId && b'.userId == userId then
                { b' with voteType := choice, votedAt := now, lastChangeAt := now }
              else b') })) := by
  constructor
  · intro h
    simp [add_vote, hb, h]
  · intro h
    simp [add_vote, hb, not_lt.mpr h]

/-- Closed witness for `ballot_change_cooldown`: voter 7 last changed at
time 0; a change at time 10 is rejected with the store untouched, one at
time 40 is accepted. -/
theorem ballot_change_cooldown_witness :
    add_vote 10 1 7 Choice.no
        { activeVotes := [], voteResults :=
            [{ voteId := 1, userId := 7, voteType := Choice.yes,
               votedAt := 0, lastChangeAt := 0 }],
          voteHistory := [], cooldowns := [], nextVoteId := 2 } =
      (false,
       { activeVotes := [], voteResults :=
           [{ voteId := 1, userId := 7, voteType := Choice.yes,
              votedAt := 0, lastChangeAt := 0 }],
         voteHistory := [], cooldowns := [], nextVoteId := 2 }) ∧
    (add_vote 40 1 7 Choice.no
        { activeVotes := [], voteResults :=
            [{ voteId := 1, userId := 7, voteType := Choice.yes,
               votedAt := 0, lastChangeAt := 0 }],
          voteHistory := [], cooldowns := [], nextVoteId := 2 }).1 = true := by
  refine ⟨(ballot_change_cooldown 10 1 7 Choice.no
    { activeVotes := [], voteResults :=
        [{ voteId := 1, userId := 7, voteType := Choice.yes,
           votedAt := 0, lastChangeAt := 0 }],
      voteHistory := [], cooldowns := [], nextVoteId := 2 }
    { voteId := 1, userId := 7, voteType := Choice.yes,
      votedAt := 0, lastChangeAt := 0 } (by decide)).1 (by decide), ?_⟩
  have h := (ballot_change_cooldown 40 1 7 Choice.no
    { activeVotes := [], voteResults :=
        [{ voteId := 1, userId := 7, voteType := Choice.yes,
           votedAt := 0, lastChangeAt := 0 }],
      voteHistory := [], cooldowns := [], nextVoteId := 2 }
    { voteId := 1, userId := 7, voteType := Choice.yes,
      votedAt := 0, lastChangeAt := 0 } (by decide)).2 (by decide)
  rw [h]

/-- C10: when a ballot callback arrives for a vote whose `expires_at` has
already passed, the handler answers that the vote is finished and returns
before any write: the stores are returned unchanged and `add_vote` is
never reached. -/
theorem ballot_after_deadline_rejected (now : Int) (voteId : Nat)
    (choice : Choice) (userId : Int) (userRank : Nat) (vm : VMState)
    (ms : MState) (v : Vote)
    (hv : get_vote_by_id voteId vm = some v)
    (hexp : v.expiresAt ≤ now) :
    vote_callback_handler now voteId choice userId userRank vm ms =
      (vm, ms, [Effect.answerCb "vote finished"]) := by
  simp [vote_callback_handler, hv, hexp]

/-- Closed witness for `ballot_after_deadline_rejected`: a vote that
expired at time 300 receives a ballot at time 301 and nothing changes. -/
theorem ballot_after_deadline_rejected_witness :
    vote_callback_handler 301 1 Choice.yes 40 RANK_USER
        { activeVotes :=
            [{ voteId := 1, chatId := 10, targetUserId := 20, creatorId := 30,
               muteDuration := 300, requiredVotes := 5, voteDuration := 5,
               createdAt := 0, expiresAt := 300, isPinned := false,
               messageId := some 99 }],
          voteResults := [], voteHistory := [], cooldowns := [],
          nextVoteId := 2 }
        { punishments := [], nextId := 1 } =
      ({ activeVotes :=
           [{ voteId := 1, chatId := 10, targetUserId := 20, creatorId := 30,
              muteDuration := 300, requiredVotes := 5, voteDuration := 5,
              createdAt := 0, expiresAt := 300, isPinned := false,
              messageId := some 99 }],
         voteResults := [], voteHistory := [], cooldowns := [],
         nextVoteId := 2 },
       { punishments := [], nextId := 1 },
       [Effect.answerCb "vote finished"]) :=
  ballot_after_deadline_rejected 301 1 Choice.yes 40 RANK_USER _ _
    { voteId := 1, chatId := 10, targetUserId := 20, creatorId := 30,
      muteDuration := 300, requiredVotes := 5, voteDuration := 5,
      createdAt := 0, expiresAt := 300, isPinned := false,
      messageId := some 99 }
    (by decide) (by decide)

/-- C9: a ballot from the vote's creator, its target, or a sender whose
effective rank is not the baseline `RANK_USER` is rejected before
`add_vote`: both stores come back unchanged. -/
theorem ineligible_voter_rejected (now : Int) (voteId : Nat)
    (choice : Choice) (userId : Int) (userRank : Nat) (vm : VMState)
    (ms : MState) (v : Vote)
    (hv : get_vote_by_id voteId vm = some v)
    (hlive : now < v.expiresAt)
    (hin : userId = v.creatorId ∨ userId = v.targetUserId ∨ userRank ≠ RANK_USER) :
    (vote_callback_handler now voteId choice userId userRank vm ms).1 = vm ∧
    (vote_callback_handler now voteId choice userId userRank vm ms).2.1 = ms := by
  have hexp : ¬ v.expiresAt ≤ now := not_le.mpr hlive
  rcases hin with h | h | h
  · simp [vote_callback_handler, hv, hexp, h]
  · by_cases hc : userId = v.creatorId
    · simp [vote_callback_handler, hv, hexp, hc]
    · have hc2 : ¬ v.targetUserId = v.creatorId := fun e => hc (by rw [h, e])
      subst h
      simp [vote_callback_handler, hv, hexp, hc2]
  · by_cases hc : userId = v.creatorId
    · simp [vote_callback_handler, hv, hexp, hc]
    · by_cases ht : userId = v.targetUserId
      · have hc2 : ¬ v.targetUserId = v.creatorId := fun e => hc (by rw [ht, e])
        subst ht
        simp [vote_callback_handler, hv, hexp, hc2]
      · simp [vote_callback_handler, hv, hexp, hc, ht, h]

/-- Closed witness for `ineligible_voter_rejected`: the creator (id 30) of
a live vote attempts a ballot and the stores are unchanged. -/
theorem ineligible_voter_rejected_witness :
    (vote_callback_handler 100 1 Choice.yes 30 RANK_USER
        { activeVotes :=
            [{ voteId := 1, chatId := 10, targetUserId := 20, creatorId := 30,
               muteDuration := 300, requiredVotes := 5, voteDuration := 5,
               createdAt := 0, expiresAt := 300, isPinned := false,
               messageId := some 99 }],
          voteResults := [], voteHistory := [], cooldowns := [],
          nextVoteId := 2 }
        { punishments := [], nextId := 1 }).1 =
      { activeVotes :=
          [{ voteId := 1, chatId := 10, targetUserId := 20, creatorId := 30,
             muteDuration := 300, requiredVotes := 5, voteDuration := 5,
             createdAt := 0, expiresAt := 300, isPinned := false,
             messageId := some 99 }],
        voteResults := [], voteHistory := [], cooldowns := [],
        nextVoteId := 2 } ∧
    (vote_callback_handler 100 1 Choice.yes 30 RANK_USER
        { activeVotes :=
            [{ voteId := 1, chatId := 10, targetUserId := 20, creatorId := 30,
               muteDuration := 300, requiredVotes := 5, voteDuration := 5,
               createdAt := 0, expiresAt := 300, isPinned := false,
               messageId := some 99 }],
          voteResults := [], voteHistory := [], cooldowns := [],
          nextVoteId := 2 }
        { punishments := [], nextId := 1 }).2.1 =
      { punishments := [], nextId := 1 } :=
  ineligible_voter_rejected 100 1 Choice.yes 30 RANK_USER _ _
    { voteId := 1, chatId := 10, targetUserId := 20, creatorId := 30,
      muteDuration := 300, requiredVotes := 5, voteDuration := 5,
      createdAt := 0, expiresAt := 300, isPinned := false,
      messageId := some 99 }
    (by decide) (by decide) (Or.inl (by decide))

/-- A record with a different id survives `deactivate_punishment`
untouched. -/
theorem deactivate_preserves_other (pid : Nat) (ms : MState) (qid : Nat)
    (q : Punishment) (hne : pid ≠ qid)
    (hq : lookup_punishment qid ms = some q) :
    lookup_punishment qid (deactivate_punishment pid ms).2 = some q := by
  unfold deactivate_punishment
  cases hfa : ms.punishments.find? (fun p => p.id == pid && p.active) with
  | none => simpa using hq
  | some w =>
      simp only [lookup_punishment, List.find?_map]
      have hcong :
          ((fun p : Punishment => p.id == qid) ∘ fun p : Punishment =>
              if p.id == pid then { p with active := false } else p) =
            fun p : Punishment => p.id == qid := by
        funext p
        by_cases h : p.id = pid <;> simp [h]
      rw [hcong]
      unfold lookup_punishment at hq
      rw [hq]
      have hqid : q.id = qid := by
        have := List.find?_some hq
        simpa using this
      simp [Option.map_some, hqid, hne.symm]

/-- A mute record that is non-expired (no expiry or expiry after `now`) is
skipped by the per-mute scan body: store, cache and effects untouched. -/
theorem process_mute_record_skips_fresh (now ctime : Int) (m : Punishment)
    (ms : MState) (cache : List (Nat × Int))
    (hnot : m.expiryDate = none ∨ ∃ e, m.expiryDate = some e ∧ now < e) :
    process_mute_record now ctime m ms cache = (ms, cache, []) := by
  unfold process_mute_record
  rcases hnot with h | ⟨e, he, hlt⟩
  · by_cases hc : cache_hit ctime m.id cache <;> simp [hc, h]
  · by_cases hc : cache_hit ctime m.id cache <;>
      simp [hc, he, show now - e < 0 by omega]

/-- The per-mute scan body on a record of a different id preserves a
looked-up record and emits only effects tagged with the processed id. -/
theorem process_mute_record_other (now ctime : Int) (m : Punishment)
    (ms : MState) (cache : List (Nat × Int)) (qid : Nat) (q : Punishment)
    (hne : m.id ≠ qid) (hq : lookup_punishment qid ms = some q) :
    lookup_punishment qid (process_mute_record now ctime m ms cache).1 = some q ∧
    ∀ e ∈ (process_mute_record now ctime m ms cache).2.2,
      Effect.reversedId e ≠ some qid := by
  unfold process_mute_record
  by_cases hc : cache_hit ctime m.id cache
  · simp [hc, hq]
  · cases hed : m.expiryDate with
    | none => simp [hc, hq]
    | some e =>
        by_cases hlt : now - e < 0
        · simp [hc, hlt, hq]
        · have hpres := deactivate_preserves_other m.id ms qid q hne hq
          by_cases hw : (deactivate_punishment m.id ms).1
          · simp [hc, hlt, hw, hpres, Effect.reversedId, hne]
          · simp [hc, hlt, hw, hpres]

/-- A ban record that is non-expired is skipped by the per-ban scan
body. -/
theorem process_ban_record_skips_fresh (now : Int) (b : Punishment)
    (ms : MState)
    (hnot : b.expiryDate = none ∨ ∃ e, b.expiryDate = some e ∧ now < e) :
    process_ban_record now b ms = (ms, []) := by
  unfold process_ban_record
  rcases hnot with h | ⟨e, he, hlt⟩
  · simp [h]
  · simp [he, show ¬ now ≥ e by omega]

/-- The per-ban scan body on a record of a different id preserves a
looked-up record and emits only effects tagged with the processed id. -/
theorem process_ban_record_other (now : Int) (b : Punishment) (ms : MState)
    (qid : Nat) (q : Punishment) (hne : b.id ≠ qid)
    (hq : lookup_punishment qid ms = some q) :
    lookup_punishment qid (process_ban_record now b ms).1 = some q ∧
    ∀ e ∈ (process_ban_record now b ms).2, Effect.reversedId e ≠ some qid := by
  unfold process_ban_record
  cases hed : b.expiryDate with
  | none => simp [hq]
  | some e =>
      by_cases hge : now ≥ e
      · have hpres := deactivate_preserves_other b.id ms qid q hne hq
        by_cases hw : (deactivate_punishment b.id ms).1
        · simp [hge, hw, hpres, Effect.reversedId, hne]
        · simp [hge, hw, hpres]
      · simp [hge, hq]

/-- Folding the per-mute scan body over any record list in which the only
record carrying `q`'s id is the non-expired `q` itself leaves `q`'s entry
untouched and reverses nothing with `q`'s id. -/
theorem scan_mutes_fold_preserves (now ctime : Int) (q : Punishment)
    (hqnot : q.expiryDate = none ∨ ∃ e, q.expiryDate = some e ∧ now < e) :
    ∀ (L : List Punishment) (ms : MState) (cache : List (Nat × Int))
      (fx : List Effect),
      (∀ m ∈ L, m.id = q.id → m = q) →
      lookup_punishment q.id ms = some q →
      (∀ e ∈ fx, Effect.reversedId e ≠ some q.id) →
      lookup_punishment q.id
          (L.foldl (fun acc m =>
            let step := process_mute_record now ctime m acc.1 acc.2.1
            (step.1, step.2.1, acc.2.2 ++ step.2.2)) (ms, cache, fx)).1 =
        some q ∧
      ∀ e ∈ (L.foldl (fun acc m =>
          let step := process_mute_record now ctime m acc.1 acc.2.1
          (step.1, step.2.1, acc.2.2 ++ step.2.2)) (ms, cache, fx)).2.2,
        Effect.reversedId e ≠ some q.id := by
  intro L
  induction L with
  | nil => intro ms cache fx _ hq hfx; exact ⟨hq, hfx⟩
  | cons m L ih =>
      intro ms cache fx hL hq hfx
      by_cases hm : m.id = q.id
      · have hmq : m = q := hL m (List.mem_cons_self m L) hm
        subst hmq
        rw [List.foldl_cons]
        simp only [process_mute_record_skips_fresh now ctime m ms cache hqnot]
        exact ih ms cache (fx ++ []) (fun x hx hid => hL x (List.mem_cons_of_mem m hx) hid)
          hq (by simpa using hfx)
      · have hstep := process_mute_record_other now ctime m ms cache q.id q hm hq
        rw [List.foldl_cons]
        refine ih _ _ _ (fun x hx hid => hL x (List.mem_cons_of_mem m hx) hid)
          hstep.1 ?_
        intro e he
        rcases List.mem_append.mp he with h | h
        · exact hfx e h
        · exact hstep.2 e h

/-- Folding the per-ban scan body: same preservation statement. -/
theorem scan_bans_fold_preserves (now : Int) (q : Punishment)
    (hqnot : q.expiryDate = none ∨ ∃ e, q.expiryDate = some e ∧ now < e) :
    ∀ (L : List Punishment) (ms : MState) (fx : List Effect),
      (∀ m ∈ L, m.id = q.id → m = q) →
      lookup_punishment q.id ms = some q →
      (∀ e ∈ fx, Effect.reversedId e ≠ some q.id) →
      lookup_punishment q.id
          (L.foldl (fun acc b =>
            let step := process_ban_record now b acc.1
            (step.1, acc.2 ++ step.2)) (ms, fx)).1 = some q ∧
      ∀ e ∈ (L.foldl (fun acc b =>
          let step := process_ban_record now b acc.1
          (step.1, acc.2 ++ step.2)) (ms, fx)).2,
        Effect.reversedId e ≠ some q.id := by
  intro L
  induction L with
  | nil => intro ms fx _ hq hfx; exact ⟨hq, hfx⟩
  | cons b L ih =>
      intro ms fx hL hq hfx
      by_cases hb : b.id = q.id
      · have hbq : b = q := hL b (List.mem_cons_self b L) hb
        subst hbq
        rw [List.foldl_cons]
        simp only [process_ban_record_skips_fresh now b ms hqnot]
        exact ih ms (fx ++ []) (fun x hx hid => hL x (List.mem_cons_of_mem b hx) hid)
          hq (by simpa using hfx)
      · have hstep := process_ban_record_other now b ms q.id q hb hq
        rw [List.foldl_cons]
        refine ih _ _ (fun x hx hid => hL x (List.mem_cons_of_mem b hx) hid)
          hstep.1 ?_
        intro e he
        rcases List.mem_append.mp he with h | h
        · exact hfx e h
        · exact hstep.2 e h

/-- C3: a punishment whose expiry timestamp lies strictly in the future —
or which has no expiry at all (permanent) — is never deactivated by a
mute-expiry or ban-expiry scan iteration, and no reversal side effect is
emitted for it: its record survives both scans unchanged (in particular
still active). -/
theorem no_premature_reversal (now ctime : Int) (cache : List (Nat × Int))
    (chatId : Int) (ms : MState) (p : Punishment)
    (hp : lookup_punishment p.id ms = some p)
    (_hact : p.active = true)
    (hN : (ms.punishments.map (fun q => q.id)).Nodup)
    (hnot : p.expiryDate = none ∨ ∃ e, p.expiryDate = some e ∧ now < e) :
    (lookup_punishment p.id (scan_chat_mutes now ctime cache chatId ms).1 =
        some p ∧
      ∀ e ∈ (scan_chat_mutes now ctime cache chatId ms).2.2,
        Effect.reversedId e ≠ some p.id) ∧
    (lookup_punishment p.id (scan_chat_bans now chatId ms).1 = some p ∧
      ∀ e ∈ (scan_chat_bans now chatId ms).2,
        Effect.reversedId e ≠ some p.id) := by
  have hpmem : p ∈ ms.punishments := List.mem_of_find?_eq_some hp
  have hunique : ∀ m ∈ ms.punishments, m.id = p.id → m = p := by
    intro m hm hid
    exact List.inj_on_of_nodup_map hN hm hpmem hid
  constructor
  · exact scan_mutes_fold_preserves now ctime p hnot
      (get_active_punishments chatId "mute" ms) ms cache []
      (fun m hm hid => hunique m (List.mem_of_mem_filter hm) hid)
      hp (by simp)
  · exact scan_bans_fold_preserves now p hnot
      (get_active_punishments chatId "ban" ms) ms []
      (fun m hm hid => hunique m (List.mem_of_mem_filter hm) hid)
      hp (by simp)

/-- Closed witness for `no_premature_reversal`: an active mute expiring at
time 100 survives a scan at time 50 (and the ban scan) untouched. -/
theorem no_premature_reversal_witness :
    (lookup_punishment 1
        (scan_chat_mutes 50 50 []
          10
          { punishments :=
              [{ id := 1, chatId := 10, userId := 20, moderatorId := 30,
                 kind := "mute", durationSeconds := some 100,
                 expiryDate := some 100, active := true }],
            nextId := 2 }).1 =
      some
        { id := 1, chatId := 10, userId := 20, moderatorId := 30,
          kind := "mute", durationSeconds := some 100,
          expiryDate := some 100, active := true }) := by
  have h := no_premature_reversal 50 50 [] 10
    { punishments :=
        [{ id := 1, chatId := 10, userId := 20, moderatorId := 30,
           kind := "mute", durationSeconds := some 100,
           expiryDate := some 100, active := true }],
      nextId := 2 }
    { id := 1, chatId := 10, userId := 20, moderatorId := 30,
      kind := "mute", durationSeconds := some 100,
      expiryDate := some 100, active := true }
    (by decide) (by decide) (by decide)
    (Or.inr ⟨100, by decide, by decide⟩)
  exact h.1.1

/-- Whether the store still holds an active record with the given id —
exactly the condition `deactivate_punishment`'s compare-and-set tests. -/
def scan_active (pid : Nat) (ms : MState) : Bool :=
  (ms.punishments.find? (fun p => p.id == pid && p.active)).isSome

/-- `deactivate_punishment` returns true exactly when an active record with
the id was present. -/
theorem deactivate_fst (pid : Nat) (ms : MState) :
    (deactivate_punishment pid ms).1 = scan_active pid ms := by
  unfold deactivate_punishment scan_active
  cases ms.punishments.find? (fun p => p.id == pid && p.active) <;> simp

/-- After `deactivate_punishment`, no active record with the id remains:
`active = false` is terminal for the contested record. -/
theorem deactivate_inactive_after (pid : Nat) (ms : MState) :
    scan_active pid (deactivate_punishment pid ms).2 = false := by
  unfold deactivate_punishment
  cases hfa : ms.punishments.find? (fun p => p.id == pid && p.active) with
  | none => simp [scan_active, hfa]
  | some w =>
      simp only [scan_active, List.find?_map]
      rw [List.find?_eq_none.mpr]
      · simp
      · intro p _
        by_cases h : p.id = pid <;> simp [h]

/-- A losing `deactivate_punishment` call changes nothing. -/
theorem deactivate_lost_eq (pid : Nat) (ms : MState)
    (h : scan_active pid ms = false) :
    (deactivate_punishment pid ms).2 = ms := by
  unfold deactivate_punishment
  cases hfa : ms.punishments.find? (fun p => p.id == pid && p.active) with
  | none => rfl
  | some w =>
      unfold scan_active at h
      rw [hfa] at h
      simp at h

/-- Replacing one element of a list shifts a mapped sum by the difference
of the images (subtraction-free form). -/
theorem sum_map_set {α : Type} (f : α → Nat) :
    ∀ (l : List α) (i : Nat) (a b : α), l.get? i = some a →
      ((l.set i b).map f).sum + f a = (l.map f).sum + f b := by
  intro l
  induction l with
  | nil => intro i a b h; simp at h
  | cons x l ih =>
      intro i a b h
      cases i with
      | zero =>
          simp only [List.get?] at h
          cases h
          simp only [List.set, List.map_cons, List.sum_cons]
          omega
      | succ n =>
          simp only [List.get?] at h
          have hih := ih n a b h
          simp only [List.set, List.map_cons, List.sum_cons]
          omega

/-- Replacing one element of a list shifts a `countP` by the difference of
the indicator values (subtraction-free form). -/
theorem countP_set {α : Type} (p : α → Bool) :
    ∀ (l : List α) (i : Nat) (a b : α), l.get? i = some a →
      (l.set i b).countP p + (if p a then 1 else 0) =
        l.countP p + (if p b then 1 else 0) := by
  intro l
  induction l with
  | nil => intro i a b h; simp at h
  | cons x l ih =>
      intro i a b h
      cases i with
      | zero =>
          simp only [List.get?] at h
          cases h
          simp only [List.set, List.countP_cons]
          omega
      | succ n =>
          simp only [List.get?] at h
          have hih := ih n a b h
          simp only [List.set, List.countP_cons]
          omega

/-- Local well-formedness of one racing scan: before its CAS it has no
recorded outcome and no side effect; while it owns the pending side effect
its CAS returned true; a scan whose CAS did not return true has performed
no side effect. -/
def scanAgentWF (a : ScanAgent) : Prop :=
  (a.pc = 0 → a.won = none ∧ a.fx = 0) ∧
  (a.pc = 1 → a.won = some true ∧ a.fx = 0) ∧
  (a.won ≠ some true → a.fx = 0)

/-- Number of racing scans currently owning a pending side effect. -/
def ScanSys.owners (sys : ScanSys) : Nat :=
  sys.agents.countP (fun a => a.pc == 1)

/-- The race invariant: performed side effects, pending owners and the
punishment's remaining active flag together never exceed one, and every
agent is well-formed. -/
def scanInv (pid : Nat) (sys : ScanSys) : Prop :=
  sys.totalFx + sys.owners + (if scan_active pid sys.ms then 1 else 0) ≤ 1 ∧
  ∀ a ∈ sys.agents, scanAgentWF a

/-- Shape of the CAS action of a racing scan. -/
theorem scan_agent_step_cas (pid : Nat) (sys : ScanSys) (i : Nat)
    (a : ScanAgent) (hga : sys.agents.get? i = some a) (h0 : a.pc = 0) :
    scan_agent_step pid sys i =
      { ms := (deactivate_punishment pid sys.ms).2,
        agents := sys.agents.set i
          ({ pc := if (deactivate_punishment pid sys.ms).1 then 1 else 2,
             won := some (deactivate_punishment pid sys.ms).1,
             fx := a.fx }) } := by
  unfold scan_agent_step
  rw [hga]
  simp [h0]

/-- Shape of the side-effect action of a racing scan. -/
theorem scan_agent_step_effect (pid : Nat) (sys : ScanSys) (i : Nat)
    (a : ScanAgent) (hga : sys.agents.get? i = some a) (h1 : a.pc = 1) :
    scan_agent_step pid sys i =
      { sys with agents := sys.agents.set i ({ a with pc := 2, fx := a.fx + 1 }) } := by
  unfold scan_agent_step
  rw [hga]
  simp [h1]

/-- A finished racing scan takes no further action. -/
theorem scan_agent_step_done (pid : Nat) (sys : ScanSys) (i : Nat)
    (a : ScanAgent) (hga : sys.agents.get? i = some a) (h0 : a.pc ≠ 0)
    (h1 : a.pc ≠ 1) : scan_agent_step pid sys i = sys := by
  unfold scan_agent_step
  rw [hga]
  simp [h0, h1]

/-- Every atomic action of a racing scan preserves the race invariant. -/
theorem scanInv_step (pid : Nat) (sys : ScanSys) (i : Nat)
    (h : scanInv pid sys) : scanInv pid (scan_agent_step pid sys i) := by
  obtain ⟨hsum, hwf⟩ := h
  cases hga : sys.agents.get? i with
  | none =>
      have hid : scan_agent_step pid sys i = sys := by
        unfold scan_agent_step
        rw [hga]
      rw [hid]
      exact ⟨hsum, hwf⟩
  | some a =>
      have hamem : a ∈ sys.agents := List.get?_mem hga
      have hawf := hwf a hamem
      by_cases h0 : a.pc = 0
      · obtain ⟨hwon, hfx⟩ := hawf.1 h0
        rw [scan_agent_step_cas pid sys i a hga h0]
        have hsums := sum_map_set (fun x : ScanAgent => x.fx) sys.agents i a
          { pc := if (deactivate_punishment pid sys.ms).1 then 1 else 2,
            won := some (deactivate_punishment pid sys.ms).1, fx := a.fx } hga
        have hcnt := countP_set (fun x : ScanAgent => x.pc == 1) sys.agents i a
          { pc := if (deactivate_punishment pid sys.ms).1 then 1 else 2,
            won := some (deactivate_punishment pid sys.ms).1, fx := a.fx } hga
        refine ⟨?_, ?_⟩
        · simp only [ScanSys.totalFx, ScanSys.owners] at hsum ⊢
          by_cases hsa : scan_active pid sys.ms
          · have hokt : (deactivate_punishment pid sys.ms).1 = true := by
              rw [deactivate_fst, hsa]
            have hafter := deactivate_inactive_after pid sys.ms
            simp [hokt, hafter, h0, hfx, hsa] at hsums hcnt hsum ⊢
            have hc0 : List.countP (fun x : ScanAgent => x.pc == 1) sys.agents
                = 0 := by
              rw [List.countP_eq_zero]
              intro x hx
              simpa using hsum.2 x hx
            omega
          · have hsaf : scan_active pid sys.ms = false := by simpa using hsa
            have hokf : (deactivate_punishment pid sys.ms).1 = false := by
              rw [deactivate_fst, hsaf]
            have hms : (deactivate_punishment pid sys.ms).2 = sys.ms :=
              deactivate_lost_eq pid sys.ms hsaf
            simp [hokf, hms, hsaf, h0, hfx] at hsums hcnt hsum ⊢
            omega
        · intro x hx
          rcases List.mem_or_eq_of_mem_set hx with hmem | rfl
          · exact hwf x hmem
          · by_cases hb : (deactivate_punishment pid sys.ms).1
            · refine ⟨fun hpc => ?_, fun _ => ⟨by simp [hb], by simp [hfx]⟩,
                fun _ => by simp [hfx]⟩
              simp [hb] at hpc
            · refine ⟨fun hpc => ?_, fun hpc => ?_, fun _ => by simp [hfx]⟩
              · simp [hb] at hpc
              · simp [hb] at hpc
      · by_cases h1 : a.pc = 1
        · obtain ⟨hwon, hfx⟩ := hawf.2.1 h1
          rw [scan_agent_step_effect pid sys i a hga h1]
          have hsums := sum_map_set (fun x : ScanAgent => x.fx) sys.agents i a
            { a with pc := 2, fx := a.fx + 1 } hga
          have hcnt := countP_set (fun x : ScanAgent => x.pc == 1) sys.agents i a
            { a with pc := 2, fx := a.fx + 1 } hga
          refine ⟨?_, ?_⟩
          · simp only [ScanSys.totalFx, ScanSys.owners] at hsum ⊢
            simp [h1, hfx] at hsums hcnt hsum ⊢
            omega
          · intro x hx
            rcases List.mem_or_eq_of_mem_set hx with hmem | rfl
            · exact hwf x hmem
            · exact ⟨fun hpc => by simp at hpc,
                fun hpc => by simp at hpc,
                fun hw => absurd (by simp [hwon]) hw⟩
        · rw [scan_agent_step_done pid sys i a hga h0 h1]
          exact ⟨hsum, hwf⟩

/-- The race invariant holds along every interleaving. -/
theorem scanInv_run (pid : Nat) (tr : List Nat) (sys : ScanSys)
    (h : scanInv pid sys) : scanInv pid (run_scan_race pid tr sys) := by
  induction tr generalizing sys with
  | nil => exact h
  | cons i tr ih => exact ih _ (scanInv_step pid sys i h)

/-- C1: over any interleaving of any number of expiry scans racing on the
same punishment, the reversal side effect (unmute/unban call plus
notification) is performed at most once in total; a scan whose
`deactivate_punishment` call did not return true performs no side
effect. -/
theorem at_most_once_reversal (pid n : Nat) (ms : MState) (tr : List Nat) :
    (run_scan_race pid tr (init_scan_race n ms)).totalFx ≤ 1 ∧
    ∀ a ∈ (run_scan_race pid tr (init_scan_race n ms)).agents,
      a.won ≠ some true → a.fx = 0 := by
  have hcnt0 : (List.replicate n
      ({ pc := 0, won := none, fx := 0 } : ScanAgent)).countP
        (fun a => a.pc == 1) = 0 := by
    rw [List.countP_eq_zero]
    intro a ha
    rw [List.eq_of_mem_replicate ha]
    decide
  have hsum0 : ((List.replicate n
      ({ pc := 0, won := none, fx := 0 } : ScanAgent)).map
        (fun a => a.fx)).sum = 0 := by
    rw [List.map_replicate]
    simp
  have hinit : scanInv pid (init_scan_race n ms) := by
    constructor
    · simp only [ScanSys.totalFx, ScanSys.owners, init_scan_race, hcnt0, hsum0]
      split <;> omega
    · intro a ha
      have := List.eq_of_mem_replicate ha
      subst this
      exact ⟨fun _ => ⟨rfl, rfl⟩, fun hpc => by simp at hpc, fun _ => rfl⟩
  have hrun := scanInv_run pid tr (init_scan_race n ms) hinit
  refine ⟨?_, fun a ha hw => (hrun.2 a ha).2.2 hw⟩
  have h1 := hrun.1
  omega

/-- A successful `finish_vote` removes the vote and appends exactly one
history row for it. -/
theorem finish_vote_present (now : Int) (voteId : Nat) (result reason : String)
    (vm : VMState) (v : Vote) (hv : get_vote_by_id voteId vm = some v) :
    get_vote_by_id voteId (finish_vote now voteId result reason vm).2 = none ∧
    hist_count voteId (finish_vote now voteId result reason vm).2 =
      hist_count voteId vm + 1 := by
  unfold finish_vote
  unfold get_vote_by_id at hv
  rw [hv]
  constructor
  · simp only [get_vote_by_id, List.find?_filter]
    rw [List.find?_eq_none]
    intro x _
    simp
  · simp [hist_count]

/-- A `finish_vote` on an already-finalized vote changes nothing. -/
theorem finish_vote_absent (now : Int) (voteId : Nat) (result reason : String)
    (vm : VMState) (hv : get_vote_by_id voteId vm = none) :
    finish_vote now voteId result reason vm = (none, vm) := by
  unfold finish_vote
  unfold get_vote_by_id at hv
  rw [hv]

/-- Local well-formedness of one racing finalizer: no side effect has been
performed before the side-effect block is reached, the block is reached
only after observing the vote live, and it is performed at most once. -/
def finAgentWF (a : FinAgent) : Prop :=
  (a.pc = 0 → a.fx = 0 ∧ a.saw = false) ∧
  (a.pc = 1 → a.fx = 0) ∧
  (a.pc = 2 → a.fx = 0 ∧ a.saw = true) ∧
  a.fx ≤ 1 ∧
  (a.saw = false → a.fx = 0)

/-- The finalizer-race invariant: the vote has at most one history row or
live row in total, and every finalizer is well-formed. -/
def finInv (voteId : Nat) (sys : FinSys) : Prop :=
  hist_count voteId sys.vm +
      (if (get_vote_by_id voteId sys.vm).isSome then 1 else 0) ≤ 1 ∧
  ∀ a ∈ sys.agents, finAgentWF a

/-- Shape of the read action of a racing finalizer. -/
theorem fin_agent_step_read (now : Int) (voteId : Nat) (sys : FinSys)
    (i : Nat) (a : FinAgent) (hga : sys.agents.get? i = some a)
    (h0 : a.pc = 0) :
    fin_agent_step now voteId sys i =
      { sys with
          agents := sys.agents.set i
            ({ a with pc := 1, saw := (get_vote_by_id voteId sys.vm).isSome }) } := by
  unfold fin_agent_step
  rw [hga]
  simp [h0]

/-- Shape of the `finish_vote` action of a racing finalizer that observed
the vote live. -/
theorem fin_agent_step_finish (now : Int) (voteId : Nat) (sys : FinSys)
    (i : Nat) (a : FinAgent) (hga : sys.agents.get? i = some a)
    (h1 : a.pc = 1) (hsaw : a.saw = true) :
    fin_agent_step now voteId sys i =
      { vm := (finish_vote now voteId a.result a.reason sys.vm).2,
        agents := sys.agents.set i ({ a with pc := 2 }) } := by
  unfold fin_agent_step
  rw [hga]
  simp [h1, hsaw]

/-- Shape of the early return of a racing finalizer that observed the vote
already finalized. -/
theorem fin_agent_step_return (now : Int) (voteId : Nat) (sys : FinSys)
    (i : Nat) (a : FinAgent) (hga : sys.agents.get? i = some a)
    (h1 : a.pc = 1) (hsaw : a.saw = false) :
    fin_agent_step now voteId sys i =
      { sys with agents := sys.agents.set i ({ a with pc := 3 }) } := by
  unfold fin_agent_step
  rw [hga]
  simp [h1, hsaw]

/-- Shape of the side-effect block of a racing finalizer. -/
theorem fin_agent_step_effect (now : Int) (voteId : Nat) (sys : FinSys)
    (i : Nat) (a : FinAgent) (hga : sys.agents.get? i = some a)
    (h2 : a.pc = 2) :
    fin_agent_step now voteId sys i =
      { sys with
          agents := sys.agents.set i
            ({ a with pc := 3, fx := a.fx + 1 }) } := by
  unfold fin_agent_step
  rw [hga]
  have h0 : a.pc ≠ 0 := by omega
  have h1 : a.pc ≠ 1 := by omega
  simp [h0, h1, h2]

/-- A finished racing finalizer takes no further action. -/
theorem fin_agent_step_done (now : Int) (voteId : Nat) (sys : FinSys)
    (i : Nat) (a : FinAgent) (hga : sys.agents.get? i = some a)
    (h0 : a.pc ≠ 0) (h1 : a.pc ≠ 1) (h2 : a.pc ≠ 2) :
    fin_agent_step now voteId sys i = sys := by
  unfold fin_agent_step
  rw [hga]
  simp [h0, h1, h2]

/-- Every atomic action of a racing finalizer preserves the race
invariant. -/
theorem finInv_step (now : Int) (voteId : Nat) (sys : FinSys) (i : Nat)
    (h : finInv voteId sys) : finInv voteId (fin_agent_step now voteId sys i) := by
  obtain ⟨hsum, hwf⟩ := h
  cases hga : sys.agents.get? i with
  | none =>
      have hid : fin_agent_step now voteId sys i = sys := by
        unfold fin_agent_step
        rw [hga]
      rw [hid]
      exact ⟨hsum, hwf⟩
  | some a =>
      have hamem : a ∈ sys.agents := List.get?_mem hga
      have hawf := hwf a hamem
      by_cases h0 : a.pc = 0
      · obtain ⟨hfx, hsaw⟩ := hawf.1 h0
        rw [fin_agent_step_read now voteId sys i a hga h0]
        refine ⟨hsum, ?_⟩
        intro x hx
        rcases List.mem_or_eq_of_mem_set hx with hmem | rfl
        · exact hwf x hmem
        · exact ⟨fun hpc => by simp at hpc,
            fun _ => hfx,
            fun hpc => by simp at hpc,
            by simp [hfx],
            fun _ => hfx⟩
      · by_cases h1 : a.pc = 1
        · by_cases hsaw : a.saw
          · rw [fin_agent_step_finish now voteId sys i a hga h1 hsaw]
            have hfx := hawf.2.1 h1
            refine ⟨?_, ?_⟩
            · cases hvp : get_vote_by_id voteId sys.vm with
              | none =>
                  rw [finish_vote_absent now voteId a.result a.reason sys.vm hvp]
                  simpa [hvp] using hsum
              | some v =>
                  have hfin := finish_vote_present now voteId a.result a.reason
                    sys.vm v hvp
                  rw [hfin.1, hfin.2]
                  rw [hvp] at hsum
                  simp at hsum ⊢
                  omega
            · intro x hx
              rcases List.mem_or_eq_of_mem_set hx with hmem | rfl
              · exact hwf x hmem
              · exact ⟨fun hpc => by simp at hpc,
                  fun _ => hfx,
                  fun _ => ⟨hfx, hsaw⟩,
                  by simp [hfx],
                  fun hs => hfx⟩
          · have hsawf : a.saw = false := by simpa using hsaw
            rw [fin_agent_step_return now voteId sys i a hga h1 hsawf]
            have hfx := hawf.2.1 h1
            refine ⟨hsum, ?_⟩
            intro x hx
            rcases List.mem_or_eq_of_mem_set hx with hmem | rfl
            · exact hwf x hmem
            · exact ⟨fun hpc => by simp at hpc,
                fun hpc => by simp at hpc,
                fun hpc => by simp at hpc,
                by simp [hfx],
                fun _ => hfx⟩
        · by_cases h2 : a.pc = 2
          · obtain ⟨hfx, hsaw⟩ := hawf.2.2.1 h2
            rw [fin_agent_step_effect now voteId sys i a hga h2]
            refine ⟨hsum, ?_⟩
            intro x hx
            rcases List.mem_or_eq_of_mem_set hx with hmem | rfl
            · exact hwf x hmem
            · exact ⟨fun hpc => by simp at hpc,
                fun hpc => by simp at hpc,
                fun hpc => by simp at hpc,
                by simp [hfx],
                fun hs => by rw [hsaw] at hs; cases hs⟩
          · rw [fin_agent_step_done now voteId sys i a hga h0 h1 h2]
            exact ⟨hsum, hwf⟩

/-- The finalizer-race invariant holds along every interleaving. -/
theorem finInv_run (now : Int) (voteId : Nat) (tr : List Nat) (sys : FinSys)
    (h : finInv voteId sys) : finInv voteId (run_fin_race now voteId tr sys) := by
  induction tr generalizing sys with
  | nil => exact h
  | cons i tr ih => exact ih _ (finInv_step now voteId sys i h)

/-- C2 (amended): over any interleaving of racing `finish_votemute`
executions on the same vote, the database finalization — the move of the
vote row to history with the removal of the live row, i.e. `finish_vote`'s
compare-and-set — happens at most once (the vote never gains a second
history row); a finalizer whose initial read observed the vote already
finalized performs no resolution side effects; and each finalizer performs
its side-effect block at most once.  (The side-effect block is gated on
the initial read rather than on `finish_vote`'s discarded return value, so
two finalizers that both read the vote live may both perform it — see the
counterexample.) -/
theorem vote_finalize_race_amended (now : Int) (voteId : Nat)
    (agents : List FinAgent) (vm : VMState) (tr : List Nat)
    (h0 : hist_count voteId vm = 0)
    (hag : ∀ a ∈ agents, a.pc = 0 ∧ a.saw = false ∧ a.fx = 0) :
    hist_count voteId (run_fin_race now voteId tr
        { vm := vm, agents := agents }).vm ≤ 1 ∧
    ∀ a ∈ (run_fin_race now voteId tr { vm := vm, agents := agents }).agents,
      (a.saw = false → a.fx = 0) ∧ a.fx ≤ 1 := by
  have hinit : finInv voteId { vm := vm, agents := agents } := by
    constructor
    · simp only [h0]
      split <;> omega
    · intro a ha
      obtain ⟨hpc, hsaw, hfx⟩ := hag a ha
      refine ⟨fun _ => ⟨hfx, hsaw⟩, fun _ => hfx, ?_, by omega, fun _ => hfx⟩
      intro hpc2
      rw [hpc] at hpc2
      cases hpc2
  have hrun := finInv_run now voteId tr { vm := vm, agents := agents } hinit
  refine ⟨?_, fun a ha => ⟨(hrun.2 a ha).2.2.2.2, (hrun.2 a ha).2.2.2.1⟩⟩
  have h1 := hrun.1
  omega

/-- Closed witness for `vote_finalize_race_amended`: one finalizer run to
completion on a single-vote store finalizes it once. -/
theorem vote_finalize_race_amended_witness :
    hist_count 1 (run_fin_race 300 1 [0, 0, 0]
        { vm :=
            { activeVotes :=
                [{ voteId := 1, chatId := 10, targetUserId := 20,
                   creatorId := 30, muteDuration := 300, requiredVotes := 5,
                   voteDuration := 5, createdAt := 0, expiresAt := 300,
                   isPinned := false, messageId := some 99 }],
              voteResults := [], voteHistory := [], cooldowns := [],
              nextVoteId := 2 },
          agents := [fin_agent_init "failed" "window elapsed"] }).vm ≤ 1 :=
  (vote_finalize_race_amended 300 1 [fin_agent_init "failed" "window elapsed"]
    { activeVotes :=
        [{ voteId := 1, chatId := 10, targetUserId := 20,
           creatorId := 30, muteDuration := 300, requiredVotes := 5,
           voteDuration := 5, createdAt := 0, expiresAt := 300,
           isPinned := false, messageId := some 99 }],
      voteResults := [], voteHistory := [], cooldowns := [],
      nextVoteId := 2 }
    [0, 0, 0] (by decide)
    (by intro a ha; simp [fin_agent_init] at ha; rw [ha]; exact ⟨rfl, rfl, rfl⟩)).1

/-- C2 (counterexample): two `finish_votemute` executions race on the same
vote — the early-majority trigger and the deadline timer.  In the
interleaving where both perform their initial `get_vote_by_id` read before
either calls `finish_vote`, both observe the vote live and both go on to
perform the resolution side-effect block (apply/skip the mute, unpin and
edit the prompt): the block runs twice, refuting at-most-once resolution;
the source discards `finish_vote`'s return value, so the losing caller is
not stopped. -/
theorem double_resolution_counterexample :
    (run_fin_race 300 1 [0, 1, 0, 0, 1, 1]
        { vm :=
            { activeVotes :=
                [{ voteId := 1, chatId := 10, targetUserId := 20,
                   creatorId := 30, muteDuration := 300, requiredVotes := 5,
                   voteDuration := 5, createdAt := 0, expiresAt := 300,
                   isPinned := false, messageId := some 99 }],
              voteResults := [], voteHistory := [], cooldowns := [],
              nextVoteId := 2 },
          agents := [fin_agent_init "failed" "majority against mute",
                     fin_agent_init "failed" "window elapsed"] }).totalFx
      = 2 := by
  decide

/-- `add_vote` only touches the ballot table: live votes and history are
unchanged. -/
theorem add_vote_preserves (now : Int) (voteId : Nat) (userId : Int)
    (choice : Choice) (vm : VMState) :
    (add_vote now voteId userId choice vm).2.activeVotes = vm.activeVotes ∧
    (add_vote now voteId userId choice vm).2.voteHistory = vm.voteHistory := by
  unfold add_vote
  cases vm.voteResults.find? (fun b => b.voteId == voteId && b.userId == userId) with
  | none => exact ⟨rfl, rfl⟩
  | some b =>
      by_cases hc : now - b.lastChangeAt < 30 <;> simp [hc]

/-- `get_vote_by_id` only reads the live-vote table. -/
theorem get_vote_by_id_congr (voteId : Nat) (vm vm2 : VMState)
    (h : vm2.activeVotes = vm.activeVotes) :
    get_vote_by_id voteId vm2 = get_vote_by_id voteId vm := by
  unfold get_vote_by_id
  rw [h]

/-- The history row a successful `finish_vote` appends: the passed result
and reason with the tally read at that moment. -/
theorem finish_vote_hist_content (now : Int) (voteId : Nat)
    (result reason : String) (vm : VMState) (v : Vote)
    (hv : get_vote_by_id voteId vm = some v) :
    (finish_vote now voteId result reason vm).2.voteHistory =
      vm.voteHistory ++
        [{ voteId := voteId, result := result, reason := reason,
           votesYes := (get_vote_results voteId vm).1,
           votesNo := (get_vote_results voteId vm).2,
           finishedAt := now }] := by
  unfold finish_vote
  unfold get_vote_by_id at hv
  rw [hv]

/-- `finish_votemute` on a still-present vote: the store becomes
`finish_vote`'s result, and the moderation store gains the vote's mute —
with the vote's proposed duration, `until = now + mute_duration` —
exactly when the result is `"success"`. -/
theorem finish_votemute_spec (now : Int) (voteId : Nat)
    (result reason : String) (vm : VMState) (ms : MState) (v : Vote)
    (hv : get_vote_by_id voteId vm = some v) :
    (finish_votemute now voteId result reason vm ms).1 =
      (finish_vote now voteId result reason vm).2 ∧
    (finish_votemute now voteId result reason vm ms).2.1 =
      (if result == "success" then
        (add_punishment v.chatId v.targetUserId 0 "mute" (some v.muteDuration)
          (some (now + v.muteDuration)) ms).2
       else ms) := by
  unfold finish_votemute
  rw [hv]
  by_cases hr : (result == "success") = true <;> simp [hr]

/-- C4: when an accepted ballot on a live vote brings the tally to
`yes + no ≥ required_votes`, the handler resolves the vote immediately:
the live row is gone, the history row records `"success"` exactly when
`yes > no` at that moment (`"failed"` otherwise, ties included), and the
mute — with the vote's proposed duration — is recorded in the moderation
store exactly when `yes > no`. -/
theorem threshold_resolution (now : Int) (voteId : Nat) (choice : Choice)
    (userId : Int) (vm : VMState) (ms : MState) (v : Vote)
    (hv : get_vote_by_id voteId vm = some v)
    (hlive : now < v.expiresAt)
    (hnc : userId ≠ v.creatorId)
    (hnt : userId ≠ v.targetUserId)
    (hacc : (add_vote now voteId userId choice vm).1 = true)
    (hthr : v.requiredVotes ≤
      (get_vote_results voteId (add_vote now voteId userId choice vm).2).1 +
        (get_vote_results voteId (add_vote now voteId userId choice vm).2).2) :
    get_vote_by_id voteId
        (vote_callback_handler now voteId choice userId RANK_USER vm ms).1 =
      none ∧
    (vote_callback_handler now voteId choice userId RANK_USER vm ms).1.voteHistory =
      vm.voteHistory ++
        [{ voteId := voteId,
           result :=
             if (get_vote_results voteId (add_vote now voteId userId choice vm).2).2 <
                 (get_vote_results voteId (add_vote now voteId userId choice vm).2).1
               then "success" else "failed",
           reason :=
             if (get_vote_results voteId (add_vote now voteId userId choice vm).2).2 <
                 (get_vote_results voteId (add_vote now voteId userId choice vm).2).1
               then "majority for mute" else "majority against mute",
           votesYes := (get_vote_results voteId (add_vote now voteId userId choice vm).2).1,
           votesNo := (get_vote_results voteId (add_vote now voteId userId choice vm).2).2,
           finishedAt := now }] ∧
    (vote_callback_handler now voteId choice userId RANK_USER vm ms).2.1 =
      (if (get_vote_results voteId (add_vote now voteId userId choice vm).2).2 <
           (get_vote_results voteId (add_vote now voteId userId choice vm).2).1
         then
          (add_punishment v.chatId v.targetUserId 0 "mute" (some v.muteDuration)
            (some (now + v.muteDuration)) ms).2
         else ms) := by
  have hexp : ¬ v.expiresAt ≤ now := not_le.mpr hlive
  have hpre := add_vote_preserves now voteId userId choice vm
  have hv1 : get_vote_by_id voteId (add_vote now voteId userId choice vm).2 =
      some v := by
    rw [get_vote_by_id_congr voteId vm _ hpre.1]
    exact hv
  have hspec1 := finish_votemute_spec now voteId "success" "majority for mute"
    (add_vote now voteId userId choice vm).2 ms v hv1
  have hspec2 := finish_votemute_spec now voteId "failed" "majority against mute"
    (add_vote now voteId userId choice vm).2 ms v hv1
  have hgone := finish_vote_present now voteId
  have hhist1 := finish_vote_hist_content now voteId "success"
    "majority for mute" (add_vote now voteId userId choice vm).2 v hv1
  have hhist2 := finish_vote_hist_content now voteId "failed"
    "majority against mute" (add_vote now voteId userId choice vm).2 v hv1
  unfold vote_callback_handler
  rw [hv]
  simp only [hexp, if_false, hnc, hnt, beq_iff_eq, if_neg, ne_eq,
    not_false_eq_true, not_true_eq_false, ite_false, ite_true]
  by_cases hgt :
      (get_vote_results voteId (add_vote now voteId userId choice vm).2).2 <
        (get_vote_results voteId (add_vote now voteId userId choice vm).2).1
  · simp only [hnc, hnt, hacc, hthr, hgt, ge_iff_le, ite_true, ite_false,
      Bool.not_true, Bool.false_eq_true, if_false, if_true]
    simp [hnc, hnt, hacc, not_le.mpr hlive, ge_iff_le.mpr hthr, hgt,
      hspec1.1, hspec1.2,
      (finish_vote_present now voteId "success" "majority for mute" _ v hv1).1,
      hhist1, hpre.2]
  · simp [hnc, hnt, hacc, not_le.mpr hlive, ge_iff_le.mpr hthr, hgt,
      hspec2.1, hspec2.2,
      (finish_vote_present now voteId "failed" "majority against mute" _ v hv1).1,
      hhist2, hpre.2]

/-- Closed witness for `threshold_resolution`: with `required_votes = 1`, a
single accepted yes-ballot resolves the vote at once (the live row is
gone). -/
theorem threshold_resolution_witness :
    get_vote_by_id 1
        (vote_callback_handler 100 1 Choice.yes 40 RANK_USER
          { activeVotes :=
              [{ voteId := 1, chatId := 10, targetUserId := 20, creatorId := 30,
                 muteDuration := 300, requiredVotes := 1, voteDuration := 5,
                 createdAt := 0, expiresAt := 300, isPinned := false,
                 messageId := some 99 }],
            voteResults := [], voteHistory := [], cooldowns := [],
            nextVoteId := 2 }
          { punishments := [], nextId := 1 }).1 = none :=
  (threshold_resolution 100 1 Choice.yes 40
    { activeVotes :=
        [{ voteId := 1, chatId := 10, targetUserId := 20, creatorId := 30,
           muteDuration := 300, requiredVotes := 1, voteDuration := 5,
           createdAt := 0, expiresAt := 300, isPinned := false,
           messageId := some 99 }],
      voteResults := [], voteHistory := [], cooldowns := [],
      nextVoteId := 2 }
    { punishments := [], nextId := 1 }
    { voteId := 1, chatId := 10, targetUserId := 20, creatorId := 30,
      muteDuration := 300, requiredVotes := 1, voteDuration := 5,
      createdAt := 0, expiresAt := 300, isPinned := false,
      messageId := some 99 }
    (by decide) (by decide) (by decide) (by decide) (by decide) (by decide)).1

/-- Every history row the expiry-cleanup fold adds carries result
`"failed"`, whatever the vote's tally was. -/
theorem cleanup_fold_hist_failed :
    ∀ (ids : List Nat) (now : Int) (s : VMState),
      ∀ h ∈ (ids.foldl
          (fun s vid => (finish_vote now vid "failed" "Время истекло" s).2)
          s).voteHistory,
        h ∈ s.voteHistory ∨ h.result = "failed" := by
  intro ids
  induction ids with
  | nil => intro now s h hh; exact Or.inl hh
  | cons vid ids ih =>
      intro now s h hh
      rw [List.foldl_cons] at hh
      rcases ih now ((finish_vote now vid "failed" "Время истекло" s).2) h hh
        with hmem | hres
      · unfold finish_vote at hmem
        cases hfa : s.activeVotes.find? (fun v => v.voteId == vid) with
        | none =>
            rw [hfa] at hmem
            exact Or.inl hmem
        | some v =>
            rw [hfa] at hmem
            simp at hmem
            rcases hmem with hmem | hmem
            · exact Or.inl hmem
            · right
              rw [hmem]
      · exact Or.inr hres

/-- C5 (amended): the deadline timer resolves a still-present vote with the
majority rule on the tally at that moment — history records `"success"`
exactly when `yes > no` and the mute is applied exactly then, so a tie
resolves to rejection; the *other* mechanism that finalizes expired votes,
the periodic `cleanup_expired_votes` task, resolves every expired vote to
`"failed"` regardless of the tally (see the counterexample for a
majority-yes vote it rejects). -/
theorem deadline_resolution_amended (now : Int) (voteId : Nat) (vm : VMState)
    (ms : MState) (v : Vote)
    (hv : get_vote_by_id voteId vm = some v) :
    (get_vote_by_id voteId (votemute_timer_fire now voteId vm ms).1 = none ∧
     (votemute_timer_fire now voteId vm ms).1.voteHistory =
       vm.voteHistory ++
         [{ voteId := voteId,
            result :=
              if (get_vote_results voteId vm).2 < (get_vote_results voteId vm).1
                then "success" else "failed",
            reason :=
              if (get_vote_results voteId vm).2 < (get_vote_results voteId vm).1
                then "window elapsed, majority for"
                else "window elapsed, majority against",
            votesYes := (get_vote_results voteId vm).1,
            votesNo := (get_vote_results voteId vm).2,
            finishedAt := now }] ∧
     (votemute_timer_fire now voteId vm ms).2.1 =
       (if (get_vote_results voteId vm).2 < (get_vote_results voteId vm).1
         then
          (add_punishment v.chatId v.targetUserId 0 "mute" (some v.muteDuration)
            (some (now + v.muteDuration)) ms).2
         else ms)) ∧
    (∀ (now2 : Int) (vm2 : VMState),
      ∀ h ∈ (cleanup_expired_votes now2 vm2).2.voteHistory,
        h ∈ vm2.voteHistory ∨ h.result = "failed") := by
  constructor
  · have hspec1 := finish_votemute_spec now voteId "success"
      "window elapsed, majority for" vm ms v hv
    have hspec2 := finish_votemute_spec now voteId "failed"
      "window elapsed, majority against" vm ms v hv
    have hhist1 := finish_vote_hist_content now voteId "success"
      "window elapsed, majority for" vm v hv
    have hhist2 := finish_vote_hist_content now voteId "failed"
      "window elapsed, majority against" vm v hv
    unfold votemute_timer_fire
    rw [hv]
    by_cases hgt : (get_vote_results voteId vm).2 < (get_vote_results voteId vm).1
    · simp [hgt, hspec1.1, hspec1.2, hhist1,
        (finish_vote_present now voteId "success"
          "window elapsed, majority for" vm v hv).1]
    · simp [hgt, hspec2.1, hspec2.2, hhist2,
        (finish_vote_present now voteId "failed"
          "window elapsed, majority against" vm v hv).1]
  · intro now2 vm2 h hh
    exact cleanup_fold_hist_failed _ now2 vm2 h hh

/-- Closed witness for `deadline_resolution_amended`: the timer fired on a
vote with one yes and one no ballot (a tie) leaves the moderation store
untouched — the tie resolves to rejection. -/
theorem deadline_resolution_amended_witness :
    (votemute_timer_fire 301 1
        { activeVotes :=
            [{ voteId := 1, chatId := 10, targetUserId := 20, creatorId := 30,
               muteDuration := 300, requiredVotes := 5, voteDuration := 5,
               createdAt := 0, expiresAt := 300, isPinned := false,
               messageId := some 99 }],
          voteResults :=
            [{ voteId := 1, userId := 40, voteType := Choice.yes,
               votedAt := 10, lastChangeAt := 10 },
             { voteId := 1, userId := 41, voteType := Choice.no,
               votedAt := 20, lastChangeAt := 20 }],
          voteHistory := [], cooldowns := [], nextVoteId := 2 }
        { punishments := [], nextId := 1 }).2.1 =
      (if (get_vote_results 1
            { activeVotes :=
                [{ voteId := 1, chatId := 10, targetUserId := 20, creatorId := 30,
                   muteDuration := 300, requiredVotes := 5, voteDuration := 5,
                   createdAt := 0, expiresAt := 300, isPinned := false,
                   messageId := some 99 }],
              voteResults :=
                [{ voteId := 1, userId := 40, voteType := Choice.yes,
                   votedAt := 10, lastChangeAt := 10 },
                 { voteId := 1, userId := 41, voteType := Choice.no,
                   votedAt := 20, lastChangeAt := 20 }],
              voteHistory := [], cooldowns := [], nextVoteId := 2 }).2 <
          (get_vote_results 1
            { activeVotes :=
                [{ voteId := 1, chatId := 10, targetUserId := 20, creatorId := 30,
                   muteDuration := 300, requiredVotes := 5, voteDuration := 5,
                   createdAt := 0, expiresAt := 300, isPinned := false,
                   messageId := some 99 }],
              voteResults :=
                [{ voteId := 1, userId := 40, voteType := Choice.yes,
                   votedAt := 10, lastChangeAt := 10 },
                 { voteId := 1, userId := 41, voteType := Choice.no,
                   votedAt := 20, lastChangeAt := 20 }],
              voteHistory := [], cooldowns := [], nextVoteId := 2 }).1
        then
          (add_punishment 10 20 0 "mute" (some 300) (some (301 + 300))
            { punishments := [], nextId := 1 }).2
        else { punishments := [], nextId := 1 }) :=
  ((deadline_resolution_amended 301 1
    { activeVotes :=
        [{ voteId := 1, chatId := 10, targetUserId := 20, creatorId := 30,
           muteDuration := 300, requiredVotes := 5, voteDuration := 5,
           createdAt := 0, expiresAt := 300, isPinned := false,
           messageId := some 99 }],
      voteResults :=
        [{ voteId := 1, userId := 40, voteType := Choice.yes,
           votedAt := 10, lastChangeAt := 10 },
         { voteId := 1, userId := 41, voteType := Choice.no,
           votedAt := 20, lastChangeAt := 20 }],
      voteHistory := [], cooldowns := [], nextVoteId := 2 }
    { punishments := [], nextId := 1 }
    { voteId := 1, chatId := 10, targetUserId := 20, creatorId := 30,
      muteDuration := 300, requiredVotes := 5, voteDuration := 5,
      createdAt := 0, expiresAt := 300, isPinned := false,
      messageId := some 99 }
    (by decide)).1).2.2

/-- C5 (counterexample): an expired vote holding one yes and zero no
ballots — a strict yes-majority — is finalized by the periodic
`cleanup_expired_votes` mechanism with result `"failed"` and no mute ever
applied, refuting "applied exactly when yes > no" for that finalization
mechanism. -/
theorem deadline_majority_counterexample :
    (cleanup_expired_votes 400
        { activeVotes :=
            [{ voteId := 1, chatId := 10, targetUserId := 20, creatorId := 30,
               muteDuration := 300, requiredVotes := 5, voteDuration := 5,
               createdAt := 0, expiresAt := 300, isPinned := false,
               messageId := some 99 }],
          voteResults :=
            [{ voteId := 1, userId := 40, voteType := Choice.yes,
               votedAt := 10, lastChangeAt := 10 }],
          voteHistory := [], cooldowns := [], nextVoteId := 2 }).2.voteHistory =
      [{ voteId := 1, result := "failed", reason := "Время истекло",
         votesYes := 1, votesNo := 0, finishedAt := 400 }] := by
  decide

/-- After `deactivate_punishment pid`, no record with that id is active. -/
theorem deactivate_all_inactive (pid : Nat) (s : MState) (q : Punishment)
    (hq : q ∈ (deactivate_punishment pid s).2.punishments) (hid : q.id = pid) :
    q.active = false := by
  unfold deactivate_punishment at hq
  cases hfa : s.punishments.find? (fun p => p.id == pid && p.active) with
  | none =>
      rw [hfa] at hq
      have := List.find?_eq_none.mp hfa q hq
      simpa [hid] using this
  | some w =>
      rw [hfa] at hq
      simp only [List.mem_map] at hq
      obtain ⟨q0, _, hq0⟩ := hq
      by_cases h : q0.id = pid
      · rw [← hq0]
        simp [h]
      · rw [← hq0] at hid ⊢
        simp [h] at hid

/-- A record still active after `deactivate_punishment` was present and
active before. -/
theorem deactivate_active_origin (pid : Nat) (s : MState) (q : Punishment)
    (hq : q ∈ (deactivate_punishment pid s).2.punishments)
    (hact : q.active = true) : q ∈ s.punishments := by
  unfold deactivate_punishment at hq
  cases hfa : s.punishments.find? (fun p => p.id == pid && p.active) with
  | none =>
      rw [hfa] at hq
      exact hq
  | some w =>
      rw [hfa] at hq
      simp only [List.mem_map] at hq
      obtain ⟨q0, hq0mem, hq0⟩ := hq
      by_cases h : q0.id = pid
      · rw [← hq0] at hact
        simp [h] at hact
      · rw [← hq0]
        simpa [h] using hq0mem

/-- A record still active after the re-issue deactivation fold of
`mute_command` was active before, and its id differs from every
subject-matching record the fold visited. -/
theorem mute_deact_fold_clears (targetId : Int) :
    ∀ (L : List Punishment) (s : MState) (q : Punishment),
      q ∈ (L.foldl
          (fun s p =>
            if p.userId == targetId then (deactivate_punishment p.id s).2 else s)
          s).punishments →
      q.active = true →
      q ∈ s.punishments ∧ ∀ p ∈ L, p.userId = targetId → p.id ≠ q.id := by
  intro L
  induction L with
  | nil =>
      intro s q hq _
      exact ⟨hq, by intro p hp; cases hp⟩
  | cons p L ih =>
      intro s q hq hact
      rw [List.foldl_cons] at hq
      by_cases hu : p.userId = targetId
      · rw [if_pos (by simpa using hu)] at hq
        obtain ⟨hq1, hq2⟩ := ih _ q hq hact
        have hqin : q ∈ s.punishments := deactivate_active_origin p.id _ q hq1 hact
        refine ⟨hqin, ?_⟩
        intro x hx hxu
        rcases List.mem_cons.mp hx with rfl | hx2
        · intro hne
          have := deactivate_all_inactive x.id _ q hq1 hne.symm
          rw [hact] at this
          cases this
        · exact hq2 x hx2 hxu
      · rw [if_neg (by simpa using hu)] at hq
        obtain ⟨hq1, hq2⟩ := ih _ q hq hact
        refine ⟨hq1, ?_⟩
        intro x hx hxu
        rcases List.mem_cons.mp hx with rfl | hx2
        · exact absurd hxu hu
        · exact hq2 x hx2 hxu

/-- C6 (amended): the ordinary moderation mute path first deactivates every
active mute of the subject in the chat and only then records the new
punishment, so after `mute_command` exactly one active mute is visible for
the (chat, subject) pair.  (The vote-resolution path does not participate:
see the counterexample.) -/
theorem reissue_overwrites_mute_path (now : Int)
    (chatId targetId moderatorId : Int) (durationSeconds : Int)
    (ms : MState) :
    active_mute_count chatId targetId
      (mute_command_core now chatId targetId moderatorId durationSeconds ms).1 =
      1 := by
  unfold mute_command_core active_mute_count add_punishment
  simp only [List.filter_append]
  have hnil :
      ((get_active_punishments chatId "mute" ms).foldl
          (fun s p =>
            if p.userId == targetId then (deactivate_punishment p.id s).2 else s)
          ms).punishments.filter
        (fun p => p.chatId == chatId && p.userId == targetId &&
          p.kind == "mute" && p.active) = [] := by
    rw [List.filter_eq_nil_iff]
    intro q hq hpred
    simp only [Bool.and_eq_true, beq_iff_eq] at hpred
    obtain ⟨⟨⟨hqc, hqu⟩, hqk⟩, hqa⟩ := hpred
    obtain ⟨hq1, hq2⟩ := mute_deact_fold_clears targetId
      (get_active_punishments chatId "mute" ms) ms q hq hqa
    have hqin : q ∈ get_active_punishments chatId "mute" ms := by
      unfold get_active_punishments
      rw [List.mem_filter]
      exact ⟨hq1, by simp [hqc, hqk, hqa]⟩
    exact hq2 q hqin hqu rfl
  rw [hnil]
  simp

/-- C6 (counterexample): the vote-resolution path records its mute without
deactivating the subject's existing active mute: starting from a store
holding one active mute for (chat 10, user 20), a successful vote
resolution for the same pair leaves two active mutes visible — the
re-issue-overwrites invariant does not extend to this path. -/
theorem vote_mute_no_overwrite_counterexample :
    active_mute_count 10 20
      (finish_votemute 100 1 "success" "majority for mute"
        { activeVotes :=
            [{ voteId := 1, chatId := 10, targetUserId := 20, creatorId := 30,
               muteDuration := 300, requiredVotes := 5, voteDuration := 5,
               createdAt := 0, expiresAt := 300, isPinned := false,
               messageId := some 99 }],
          voteResults := [], voteHistory := [], cooldowns := [],
          nextVoteId := 2 }
        { punishments :=
            [{ id := 1, chatId := 10, userId := 20, moderatorId := 31,
               kind := "mute", durationSeconds := some 600,
               expiryDate := some 700, active := true }],
          nextId := 2 }).2.1 = 2 := by
  decide

/-- C7 (amended): the `/votemute` command refuses while a live vote exists:
whenever the creation cooldown has elapsed but `get_active_vote` still
finds a live vote in the chat, the command guard answers
`refusedActiveVote` and the configuration panel — the only road to
creation — is not opened.  (The creation callback itself performs no such
re-check: see the counterexample.) -/
theorem live_vote_blocks_command (now : Int) (chatId : Int) (vm : VMState)
    (hcd : check_cooldown now chatId vm = true)
    (hlive : (get_active_vote now chatId vm).isSome = true) :
    votemute_command_guard now chatId vm = CommandOutcome.refusedActiveVote := by
  unfold votemute_command_guard
  simp [hcd, hlive]

/-- Closed witness for `live_vote_blocks_command`: a chat with one live
vote refuses a fresh `/votemute`. -/
theorem live_vote_blocks_command_witness :
    votemute_command_guard 100 10
        { activeVotes :=
            [{ voteId := 1, chatId := 10, targetUserId := 20, creatorId := 30,
               muteDuration := 300, requiredVotes := 5, voteDuration := 5,
               createdAt := 0, expiresAt := 300, isPinned := false,
               messageId := some 99 }],
          voteResults := [], voteHistory := [], cooldowns := [],
          nextVoteId := 2 } = CommandOutcome.refusedActiveVote :=
  live_vote_blocks_command 100 10
    { activeVotes :=
        [{ voteId := 1, chatId := 10, targetUserId := 20, creatorId := 30,
           muteDuration := 300, requiredVotes := 5, voteDuration := 5,
           createdAt := 0, expiresAt := 300, isPinned := false,
           messageId := some 99 }],
      voteResults := [], voteHistory := [], cooldowns := [],
      nextVoteId := 2 }
    (by decide) (by decide)

/-- C7 (counterexample): the creation callback `create_votemute_vote` never
re-checks for a live vote, so two interleaved creation flows in one chat
produce two simultaneously live votes: both guards pass on the empty
state, the first flow creates its vote (live at the second creation, as
the middle conjunct shows), and the second flow creates anyway. -/
theorem double_live_vote_counterexample :
    votemute_command_guard 0 10
        { activeVotes := [], voteResults := [], voteHistory := [],
          cooldowns := [], nextVoteId := 1 } = CommandOutcome.panelOpened ∧
    (get_active_vote 0 10
        (create_votemute_vote 0 10 20 30 5 5 5 false
          { activeVotes := [], voteResults := [], voteHistory := [],
            cooldowns := [], nextVoteId := 1 }).2).isSome = true ∧
    live_count 0 10
        (create_votemute_vote 0 10 21 31 5 5 5 false
          (create_votemute_vote 0 10 20 30 5 5 5 false
            { activeVotes := [], voteResults := [], voteHistory := [],
              cooldowns := [], nextVoteId := 1 }).2).2 = 2 := by
  decide

end Pixel
